import Mathlib

/-!
Shallow embedding of the price-tracking web scraper
(`src/utils/helpers.py`, `src/database/database.py`, `src/database/models.py`,
`src/scheduler.py`).  Python floats are modelled as rationals (`ℚ`), Python
dictionaries with possibly-absent keys as structures of `Option` fields
(`none` = key absent), and the SQLAlchemy-backed store as explicit list-valued
state.  Digits are modelled as ASCII digits.
-/

attribute [local semireducible] Rat.add Rat.mul Rat.inv Rat.sub Rat.ofScientific

namespace Scraper

/-! ## String helpers (src/utils/helpers.py) -/

/-- Index of the first occurrence of `c` (length of the list when absent);
mirrors Python `str.index` on the reversed string for `rindex` comparisons. -/
def idxOfC (c : Char) : List Char → Nat
  | [] => 0
  | a :: as => if a = c then 0 else idxOfC c as + 1

/-- Python `str.split(sep)` on character lists. -/
def splitOnChar (sep : Char) : List Char → List (List Char)
  | [] => [[]]
  | c :: rest =>
    let r := splitOnChar sep rest
    if c = sep then [] :: r
    else
      match r with
      | [] => [[c]]
      | h :: t => (c :: h) :: t

/-- Numeric value of a string of ASCII digits (most significant first). -/
def digitsToNat (l : List Char) : Nat :=
  l.foldl (fun a c => a * 10 + (c.toNat - 48)) 0

/-- Python `float(s)` restricted to strings over digits, `,` and `.` (the
only characters that survive the cleaning step of `format_price`): any
residual comma or a second period makes parsing fail (`ValueError`),
otherwise the string is read as `integer[.fraction]` with at least one digit
overall. `none` models the raised `ValueError`. -/
def pyFloat (l : List Char) : Option ℚ :=
  if l.contains ',' then none
  else
    match splitOnChar '.' l with
    | [ip] =>
      if !ip.isEmpty && ip.all Char.isDigit then some (digitsToNat ip) else none
    | [ip, fp] =>
      if !(ip ++ fp).isEmpty && ip.all Char.isDigit && fp.all Char.isDigit then
        some ((digitsToNat ip : ℚ) + (digitsToNat fp : ℚ) / (10 : ℚ) ^ fp.length)
      else none
    | _ => none

/-- Cleaning step `re.sub(r'[^\d,.]', '', price_text)`: keep digits, comma, period. -/
def cleanPrice (t : String) : List Char :=
  t.data.filter (fun c => c.isDigit || c = ',' || c = '.')

/-- Condition `price_clean.rindex(',') > price_clean.rindex('.')`, expressed on the
reversed string (meaningful when both characters occur). -/
def commaAfterDot (l : List Char) : Bool :=
  decide (idxOfC ',' l.reverse < idxOfC '.' l.reverse)

/-- The separator-normalisation step of `format_price`
(src/utils/helpers.py lines 171-180): with both separators present and the
comma occurring later, strip periods and turn commas into the decimal point;
with only a comma followed by a short (≤ 2 character) tail, turn commas into
the decimal point; otherwise leave the string unchanged. -/
def normalizeSeparators (l : List Char) : List Char :=
  if l.contains ',' && l.contains '.' then
    if commaAfterDot l then
      (l.filter (fun c => c ≠ '.')).map (fun c => if c = ',' then '.' else c)
    else l
  else if l.contains ',' then
    let parts := splitOnChar ',' l
    if parts.length = 2 ∧ (parts.getD 1 []).length ≤ 2 then
      l.map (fun c => if c = ',' then '.' else c)
    else l
  else l

/-- Function `format_price` (src/utils/helpers.py lines 151-184).  The argument is
`none` for Python `None`; a falsy input, an input whose cleaned form is
empty, and a cleaned form rejected by `float` all yield `0.0`. -/
def format_price : Option String → ℚ
  | none => 0
  | some t =>
    if t = "" then 0
    else
      let c := cleanPrice t
      if c.isEmpty then 0
      else (pyFloat (normalizeSeparators c)).getD 0

/-- First match of the regex `(\d+[.,]?\d*)` in the text: starting at the
first digit, greedily take digits, then at most one `.`/`,`, then digits. -/
def firstNumToken : List Char → Option (List Char)
  | [] => none
  | c :: rest =>
    if c.isDigit then
      let ds := List.takeWhile Char.isDigit (c :: rest)
      match List.dropWhile Char.isDigit (c :: rest) with
      | sep :: rest3 =>
        if sep = '.' ∨ sep = ',' then
          some (ds ++ sep :: rest3.takeWhile Char.isDigit)
        else some ds
      | [] => some ds
    else firstNumToken rest

/-- Python `.replace(',', '.')`. -/
def commaToDot (l : List Char) : List Char :=
  l.map (fun c => if c = ',' then '.' else c)

/-- Python `rating_text.count('★') + rating_text.count('⭐')`. -/
def starCount (t : String) : Nat :=
  t.data.count '★' + t.data.count '⭐'

/-- The star-counting fallback of `extract_rating`. -/
def starFallback (t : String) : ℚ :=
  if 0 < starCount t then (min 5 (starCount t) : Nat) else 0

/-- Function `extract_rating` (src/utils/helpers.py lines 187-218): parse the first
numeric token (comma read as decimal point); values above 5 are halved
(10-point scale assumption) and the result is clamped to `[0, 5]`; with no
parseable token, count star characters instead. -/
def extract_rating : Option String → ℚ
  | none => 0
  | some t =>
    if t = "" then 0
    else
      match firstNumToken t.data with
      | some tok =>
        match pyFloat (commaToDot tok) with
        | some r => min 5 (max 0 (if 5 < r then r / 2 else r))
        | none => starFallback t
      | none => starFallback t

/-! ## Data model (src/database/models.py) -/

/-- An incoming listing record, the Python dict produced by a scraper.
`none` models an absent key. -/
structure ProductData where
  title : Option String := none
  url : Option String := none
  site : Option String := none
  external_id : Option String := none
  asin : Option String := none
  price : Option ℚ := none
  original_price : Option ℚ := none
  image_url : Option String := none
  rating : Option ℚ := none
  num_reviews : Option Nat := none
  in_stock : Option Bool := none
  free_shipping : Option Bool := none
deriving DecidableEq

/-- Python truthiness of an optional string: `None` and `''` are falsy. -/
def truthyS : Option String → Bool
  | none => false
  | some s => s ≠ ""

/-- Python `a or b` on optional strings. -/
def pyOr (a b : Option String) : Option String :=
  if truthyS a then a else b

/-- A stored `products` row (src/database/models.py, class Product);
timestamp and currency columns are omitted as no claim refers to them. -/
structure Product where
  id : Nat
  title : String
  url : String
  site : String
  external_id : Option String
  current_price : ℚ
  original_price : Option ℚ
  image_url : String
  rating : ℚ
  num_reviews : Nat
  in_stock : Bool
  free_shipping : Bool
deriving DecidableEq

/-- A stored `price_history` row; `recorded_at` is an abstract clock value. -/
structure PriceHistoryRow where
  product_id : Nat
  price : ℚ
  original_price : Option ℚ
  session_id : Option Nat
  recorded_at : Nat
deriving DecidableEq

/-- A stored `scraping_sessions` row (the columns the claims refer to). -/
structure SessionRow where
  id : Nat
  session_name : Option String
  site : Option String
  search_term : Option String
  products_found : Nat
  products_saved : Nat
  success : Bool
  error_message : Option String
  completed : Bool
deriving DecidableEq

/-- The visible database state: list-valued tables plus id counters and an
abstract clock used for `recorded_at`. -/
structure DB where
  products : List Product
  history : List PriceHistoryRow
  sessions : List SessionRow
  nextProductId : Nat
  nextSessionId : Nat
  now : Nat
deriving DecidableEq

def emptyDB : DB :=
  { products := [], history := [], sessions := [],
    nextProductId := 1, nextSessionId := 1, now := 0 }

/-- Function `create_product_from_dict` (src/database/models.py lines 271-294). -/
def create_product_from_dict (d : ProductData) (id : Nat) : Product :=
  { id := id
    title := d.title.getD ""
    url := d.url.getD ""
    site := d.site.getD ""
    external_id := pyOr d.external_id d.asin
    current_price := d.price.getD 0
    original_price := d.original_price
    image_url := d.image_url.getD ""
    rating := d.rating.getD 0
    num_reviews := d.num_reviews.getD 0
    in_stock := d.in_stock.getD true
    free_shipping := d.free_shipping.getD false }

/-! ## DatabaseManager (src/database/database.py) -/

/-- Method `DatabaseManager._find_existing_product` (lines 152-184): look up by
`url` first (when the url is truthy); on a miss, look up by the
`(external_id, site)` compound key when both are truthy; otherwise `None`.
`.first()` is modelled as first match in list order. -/
def find_existing_product (ps : List Product) (d : ProductData) : Option Product :=
  let eid := pyOr d.external_id d.asin
  match (if truthyS d.url then ps.find? (fun p => p.url = d.url.getD "") else none) with
  | some p => some p
  | none =>
    if truthyS eid && truthyS d.site then
      ps.find? (fun p => decide (p.external_id = some (eid.getD "")) && decide (p.site = d.site.getD ""))
    else none

/-- The noise threshold of `_update_existing_product` (line 215). -/
def noiseThreshold : ℚ := 1 / 100

/-- The field overwrite performed by `_update_existing_product`
(lines 200-212): absent keys fall back to the stored value, except `price`
(defaults to `0.0`) and `original_price` (overwritten by the incoming value,
absent included). -/
def updatedFields (p : Product) (d : ProductData) : Product :=
  { p with
    title := d.title.getD p.title
    current_price := d.price.getD 0
    original_price := d.original_price
    image_url := d.image_url.getD p.image_url
    rating := d.rating.getD p.rating
    num_reviews := d.num_reviews.getD p.num_reviews
    in_stock := d.in_stock.getD p.in_stock
    free_shipping := d.free_shipping.getD p.free_shipping }

/-- One iteration of the `save_products` loop (lines 107-132): update the
matched product — appending a history row only when
`abs(old_price - new_price) > 0.01` (`_update_existing_product`,
lines 200-226) — or insert a new product together with its initial
history row. -/
def upsertOne (db : DB) (d : ProductData) (sid : Option Nat) : DB :=
  match find_existing_product db.products d with
  | some p =>
    let newPrice := d.price.getD 0
    { db with
      products := db.products.map (fun q => if q.id = p.id then updatedFields p d else q)
      history :=
        if noiseThreshold < |p.current_price - newPrice| then
          db.history ++ [⟨p.id, newPrice, d.original_price, sid, db.now⟩]
        else db.history }
  | none =>
    let p := create_product_from_dict d db.nextProductId
    { db with
      products := db.products ++ [p]
      history := db.history ++ [⟨p.id, p.current_price, p.original_price, sid, db.now⟩]
      nextProductId := db.nextProductId + 1 }

/-- The whole batch body of `save_products` when no storage error occurs. -/
def processProducts (db : DB) (items : List ProductData) (sid : Option Nat) : DB :=
  items.foldl (fun acc d => upsertOne acc d sid) db

/-- The `save_products` loop threaded with a storage-failure oracle:
`fail i = true` models SQLAlchemy raising while persisting item `i`
(`fail items.length` models a failure at the final commit).  `none` models
the raised error. -/
def saveGo (sid : Option Nat) (fail : Nat → Bool) : DB → List ProductData → Nat → Option DB
  | db, [], i => if fail i then none else some db
  | db, d :: rest, i =>
    if fail i then none else saveGo sid fail (upsertOne db d sid) rest (i + 1)

/-- Method `save_products` (lines 92-150): on success the batch state is committed;
on a storage error the transaction is rolled back (the original state stays
visible) and the error is re-raised — the `Bool` is `false` exactly when the
caller sees the exception. -/
def save_products (db : DB) (items : List ProductData) (sid : Option Nat)
    (fail : Nat → Bool) : DB × Bool :=
  match saveGo sid fail db items 0 with
  | some db' => (db', true)
  | none => (db, false)

/-- Rows of `price_history` belonging to one product. -/
def historyFor (db : DB) (pid : Nat) : List PriceHistoryRow :=
  db.history.filter (fun r => r.product_id = pid)

/-- Query `ORDER BY recorded_at DESC ... first()` as a fold: keep the row with
the larger `recorded_at`, the earlier one on ties. -/
def pickLater (best : Option PriceHistoryRow) (r : PriceHistoryRow) : Option PriceHistoryRow :=
  match best with
  | none => some r
  | some b => if b.recorded_at < r.recorded_at then some r else some b

/-- The `previous` lookup of `get_price_changes` (lines 328-333): among the
strictly earlier rows of the same product, the one with maximal
`recorded_at` (first in table order on ties, standing in for the backend's
arbitrary tie order). -/
def latestEarlier (hist : List PriceHistoryRow) (h : PriceHistoryRow) : Option PriceHistoryRow :=
  (hist.filter (fun r => r.product_id = h.product_id ∧ r.recorded_at < h.recorded_at)).foldl
    pickLater none

/-- The body of the `get_price_changes` loop (lines 326-338) for one recent
row: emit `(product, previous, current)` when a strictly earlier row exists,
the prices differ by more than the noise threshold, and the product row is
found. -/
def changeTuple (db : DB) (h : PriceHistoryRow) :
    Option (Product × PriceHistoryRow × PriceHistoryRow) :=
  match latestEarlier db.history h with
  | some prev =>
    if noiseThreshold < |prev.price - h.price| then
      match db.products.find? (fun p => p.id = h.product_id) with
      | some p => some (p, prev, h)
      | none => none
    else none
  | none => none

/-- Method `get_price_changes` (lines 307-340) with the window given directly as
the cutoff clock value: the recent rows are those with
`cutoff ≤ recorded_at`. -/
def get_price_changes (db : DB) (cutoff : Nat) :
    List (Product × PriceHistoryRow × PriceHistoryRow) :=
  (db.history.filter (fun h => cutoff ≤ h.recorded_at)).filterMap (changeTuple db)

/-! ## Scheduler (src/scheduler.py) -/

/-- One `(site, search, max_results)` entry of `default_searches`
(src/scheduler.py lines 148-152). -/
structure SearchConfig where
  site : String
  search : String
  max_results : Nat
deriving DecidableEq

/-- The outcome of scraper creation plus `search_products` for one pair:
either an exception escaped (`err`), or a product list was returned. -/
inductive PairOutcome where
  | err : String → PairOutcome
  | ok : List ProductData → PairOutcome
deriving DecidableEq

/-- The per-pair body of `_daily_scraping_job` (lines 156-206): an exception
is caught, logged and the sweep continues (no state change); an empty result
list skips the `if products:` block entirely (no session, no save); a
non-empty result creates a session, saves the products under its id, and
marks the session successful.  The pair's contribution to `all_products` is
returned alongside the new state. -/
def runPair (db : DB) (cfg : SearchConfig) (o : PairOutcome) : DB × List ProductData :=
  match o with
  | .err _ => (db, [])
  | .ok l =>
    if l.isEmpty then (db, [])
    else
      let sid := db.nextSessionId
      let s : SessionRow :=
        { id := sid
          session_name := some ("Agendado - " ++ cfg.search)
          site := some cfg.site
          search_term := some cfg.search
          products_found := 0
          products_saved := 0
          success := false
          error_message := none
          completed := false }
      let db1 : DB := { db with sessions := db.sessions ++ [s], nextSessionId := sid + 1 }
      let db2 := processProducts db1 l (some sid)
      let db3 : DB :=
        { db2 with
          sessions := db2.sessions.map (fun t =>
            if t.id = sid then
              { t with products_found := l.length, products_saved := l.length,
                       success := true, completed := true }
            else t) }
      (db3, l)

/-- One step of the sweep loop: run a pair and extend `all_products`. -/
def sweepStep (acc : DB × List ProductData) (pr : SearchConfig × PairOutcome) :
    DB × List ProductData :=
  let r := runPair acc.1 pr.1 pr.2
  (r.1, acc.2 ++ r.2)

/-- Method `_daily_scraping_job` (lines 140-221): fold the fixed pair list,
aggregating every non-empty successful result into `all_products`. -/
def dailyScrapingJob (db : DB) (pairs : List (SearchConfig × PairOutcome)) :
    DB × List ProductData :=
  pairs.foldl sweepStep (db, [])

/-- Pairs whose scrape succeeded with a non-empty result — exactly the ones
for which `_daily_scraping_job` reaches its `if products:` block. -/
def isOkNonempty : PairOutcome → Bool
  | .err _ => false
  | .ok l => !l.isEmpty

/-! ## Concrete fixtures used by the witnesses -/

/-- The `default_searches` of `_daily_scraping_job` (lines 148-152). -/
def cfgAmazon : SearchConfig := ⟨"amazon", "notebook", 30⟩

def cfgML : SearchConfig := ⟨"mercadolivre", "smartphone", 30⟩

def cfgEbay : SearchConfig := ⟨"ebay", "tablet", 20⟩

/-- A stored product priced `100`. -/
def fixP0 : Product :=
  { id := 1, title := "Notebook", url := "u", site := "amazon",
    external_id := some "X1", current_price := 100, original_price := none,
    image_url := "", rating := 0, num_reviews := 0, in_stock := true,
    free_shipping := false }

/-- A second stored product, reachable only through the compound key. -/
def fixP2 : Product :=
  { id := 2, title := "Tablet", url := "u2", site := "ebay",
    external_id := some "E9", current_price := 50, original_price := none,
    image_url := "", rating := 0, num_reviews := 0, in_stock := true,
    free_shipping := false }

/-- A database holding `fixP0` with its initial history row, and `fixP2`. -/
def fixDB : DB :=
  { products := [fixP0, fixP2],
    history := [⟨1, 100, none, none, 0⟩],
    sessions := [], nextProductId := 3, nextSessionId := 1, now := 5 }

/-- The same listing payload that produced `fixP0` (price unchanged). -/
def fixSame : ProductData :=
  { title := some "Notebook", url := some "u", site := some "amazon",
    external_id := some "X1", price := some 100 }

/-- The same listing with the price moved beyond the noise threshold. -/
def fixMoved : ProductData :=
  { title := some "Notebook", url := some "u", site := some "amazon",
    external_id := some "X1", price := some 200 }

/-- The same listing with the `price` key absent. -/
def fixNoPrice : ProductData := { url := some "u" }

/-- Same url as `fixP0` but a different site and external id. -/
def fixUrlA : ProductData :=
  { url := some "u", site := some "ebay", external_id := some "DIFF" }

/-- Same url as `fixP0` under yet another identity. -/
def fixUrlB : ProductData :=
  { url := some "u", site := some "amazon", external_id := some "OTHER" }

/-- No url, identity `(ebay, E9)` through `external_id`. -/
def fixCompoundA : ProductData :=
  { site := some "ebay", external_id := some "E9" }

/-- No url, identity `(ebay, E9)` through the `asin` fallback. -/
def fixCompoundB : ProductData :=
  { site := some "ebay", asin := some "E9" }

/-- History rows of one product at clock values 0 and 5. -/
def fixRow1 : PriceHistoryRow := ⟨1, 100, none, none, 0⟩

def fixRow2 : PriceHistoryRow := ⟨1, 200, none, none, 5⟩

/-- A database whose single product has two history rows. -/
def fixDB4 : DB :=
  { products := [fixP0], history := [fixRow1, fixRow2],
    sessions := [], nextProductId := 2, nextSessionId := 1, now := 6 }

end Scraper

namespace Scraper

/-! ## Shared facts about the store -/

theorem upsertOne_sessions (db : DB) (d : ProductData) (sid : Option Nat) :
    (upsertOne db d sid).sessions = db.sessions := by
  cases hf : find_existing_product db.products d <;> simp [upsertOne, hf]

theorem processProducts_sessions (db : DB) (items : List ProductData) (sid : Option Nat) :
    (processProducts db items sid).sessions = db.sessions := by
  induction items generalizing db with
  | nil => rfl
  | cons d rest ih =>
    show (processProducts (upsertOne db d sid) rest sid).sessions = db.sessions
    rw [ih, upsertOne_sessions]

theorem historyFor_append (l l' : List PriceHistoryRow) (pid : Nat) :
    (l ++ l').filter (fun r => r.product_id = pid) =
      l.filter (fun r => r.product_id = pid) ++ l'.filter (fun r => r.product_id = pid) := by
  simp [List.filter_append]

/-- Claim C1: upserting a payload that resolves to an existing stored
product appends no `PriceHistory` row when the incoming price differs from
the stored price by at most `0.01` (in particular when it is unchanged, so
the initial row from insertion stays the only one), and appends exactly one
row when it differs by more than `0.01`; a fresh insertion writes exactly
the one initial row. -/
theorem upsert_noise_idempotence (db : DB) (d : ProductData) (sid : Option Nat) (p : Product) :
    (find_existing_product db.products d = some p →
      |p.current_price - d.price.getD 0| ≤ noiseThreshold →
      historyFor (upsertOne db d sid) p.id = historyFor db p.id) ∧
    (find_existing_product db.products d = some p →
      noiseThreshold < |p.current_price - d.price.getD 0| →
      (historyFor (upsertOne db d sid) p.id).length = (historyFor db p.id).length + 1) ∧
    (find_existing_product db.products d = none →
      historyFor db db.nextProductId = [] →
      historyFor (upsertOne db d sid) db.nextProductId =
        [⟨db.nextProductId, d.price.getD 0, d.original_price, sid, db.now⟩]) := by
  refine ⟨?_, ?_, ?_⟩
  · intro hf hle
    simp only [historyFor, upsertOne, hf]
    rw [if_neg (not_lt.mpr hle)]
  · intro hf hlt
    simp only [historyFor, upsertOne, hf]
    rw [if_pos hlt, List.filter_append]
    simp
  · intro hf hemp
    simp only [historyFor, upsertOne, hf, create_product_from_dict] at *
    rw [List.filter_append, hemp]
    simp

/-- Witness for C1 at the fixtures: an unchanged price leaves the single
initial history row alone; moving the price from 100 to 200 appends one. -/
theorem upsert_noise_idempotence_witness :
    historyFor (upsertOne fixDB fixSame none) 1 = historyFor fixDB 1 ∧
    (historyFor (upsertOne fixDB fixMoved none) 1).length = (historyFor fixDB 1).length + 1 :=
  ⟨(upsert_noise_idempotence fixDB fixSame none fixP0).1 (by decide) (by decide),
   (upsert_noise_idempotence fixDB fixMoved none fixP0).2.1 (by decide) (by decide)⟩

/-- Claim C10: when the matched payload has no `price` key the stored
price is overwritten with the default `0.0` and `original_price` with the
incoming value (`none` when absent), while absent `title`, `rating`,
`num_reviews`, `in_stock` and `free_shipping` keep their stored values; a
history row with price `0` is appended exactly when the stored price
exceeds the noise threshold in absolute value. -/
theorem update_missing_price_overwrites (db : DB) (d : ProductData) (sid : Option Nat)
    (p : Product) (hf : find_existing_product db.products d = some p)
    (hp : d.price = none) :
    (updatedFields p d).current_price = 0 ∧
    (updatedFields p d).original_price = d.original_price ∧
    (d.title = none → (updatedFields p d).title = p.title) ∧
    (d.rating = none → (updatedFields p d).rating = p.rating) ∧
    (d.num_reviews = none → (updatedFields p d).num_reviews = p.num_reviews) ∧
    (d.in_stock = none → (updatedFields p d).in_stock = p.in_stock) ∧
    (d.free_shipping = none → (updatedFields p d).free_shipping = p.free_shipping) ∧
    (upsertOne db d sid).history =
      (if noiseThreshold < |p.current_price| then
        db.history ++ [⟨p.id, 0, d.original_price, sid, db.now⟩]
      else db.history) := by
  refine ⟨by simp [updatedFields, hp], by simp [updatedFields], ?_, ?_, ?_, ?_, ?_, ?_⟩
  · intro h; simp [updatedFields, h]
  · intro h; simp [updatedFields, h]
  · intro h; simp [updatedFields, h]
  · intro h; simp [updatedFields, h]
  · intro h; simp [updatedFields, h]
  · simp only [upsertOne, hf, hp, Option.getD_none, sub_zero]

/-- Witness for C10: upserting `fixNoPrice` (a payload carrying only the
url) against `fixDB` zeroes the stored price. -/
theorem update_missing_price_overwrites_witness :
    (updatedFields fixP0 fixNoPrice).current_price = 0 ∧
    (upsertOne fixDB fixNoPrice none).history =
      (if noiseThreshold < |fixP0.current_price| then
        fixDB.history ++ [⟨fixP0.id, 0, fixNoPrice.original_price, none, fixDB.now⟩]
      else fixDB.history) :=
  ⟨(update_missing_price_overwrites fixDB fixNoPrice none fixP0 (by decide) rfl).1,
   (update_missing_price_overwrites fixDB fixNoPrice none fixP0 (by decide) rfl).2.2.2.2.2.2.2⟩

/-- A truthy url that matches a stored row wins regardless of every other
field of the payload. -/
theorem find_by_url (ps : List Product) (d : ProductData) (u : String) (p : Product)
    (hu : d.url = some u) (hne : u ≠ "")
    (hfind : ps.find? (fun q => q.url = u) = some p) :
    find_existing_product ps d = some p := by
  have ht : (if truthyS d.url then ps.find? (fun q => q.url = d.url.getD "") else none)
      = some p := by
    simp [truthyS, hu, hne, hfind]
  simp only [find_existing_product, ht]

/-- With no url match and truthy compound keys, the `(external_id, site)`
lookup decides. -/
theorem find_by_compound (ps : List Product) (d : ProductData) (e s : String) (q : Product)
    (he : pyOr d.external_id d.asin = some e) (hene : e ≠ "")
    (hs : d.site = some s) (hsne : s ≠ "")
    (hmiss : ∀ u, d.url = some u → ps.find? (fun p => p.url = u) = none)
    (hfind : ps.find? (fun p => decide (p.external_id = some e) && decide (p.site = s))
      = some q) :
    find_existing_product ps d = some q := by
  have hurl : (if truthyS d.url then ps.find? (fun p => p.url = d.url.getD "") else none)
      = none := by
    cases hu : d.url with
    | none => simp [truthyS]
    | some u =>
      by_cases hne : u = ""
      · simp [truthyS, hu, hne]
      · simp [truthyS, hu, hne, hmiss u hu]
  simp only [find_existing_product, hurl]
  simp only [he, hs, Option.getD_some]
  have hc : (truthyS (some e) && truthyS (some s)) = true := by
    simp [truthyS, hene, hsne]
  rw [hc, if_pos rfl, hfind]

/-- With no url match and a falsy compound key the record is new. -/
theorem find_neither (ps : List Product) (d : ProductData)
    (hmiss : ∀ u, d.url = some u → ps.find? (fun p => p.url = u) = none)
    (hid : truthyS (pyOr d.external_id d.asin) = false ∨ truthyS d.site = false) :
    find_existing_product ps d = none := by
  have hurl : (if truthyS d.url then ps.find? (fun p => p.url = d.url.getD "") else none)
      = none := by
    cases hu : d.url with
    | none => simp [truthyS]
    | some u =>
      by_cases hne : u = ""
      · simp [truthyS, hu, hne]
      · simp [truthyS, hu, hne, hmiss u hu]
  have hand : (truthyS (pyOr d.external_id d.asin) && truthyS d.site) = false := by
    rcases hid with h | h <;> simp [h]
  simp only [find_existing_product, hurl, hand, Bool.false_eq_true, if_false]

/-- Claim C3: identity resolution — a record whose truthy url matches a
stored product resolves to that product whatever its other fields are
(first conjunct: two records with the same url but different site or
external id resolve to the same stored product); a record with no url
match and truthy `(external_id, site)` — `asin` standing in for a falsy
`external_id` — resolves through the compound key (second conjunct);
with neither key available the record is treated as new (third
conjunct). -/
theorem identity_resolution (db : DB) (d1 d2 : ProductData) :
    (∀ u p, d1.url = some u → d2.url = some u → u ≠ "" →
      db.products.find? (fun q => q.url = u) = some p →
      find_existing_product db.products d1 = some p ∧
        find_existing_product db.products d2 = some p) ∧
    (∀ e s q, pyOr d1.external_id d1.asin = some e → pyOr d2.external_id d2.asin = some e →
      e ≠ "" → d1.site = some s → d2.site = some s → s ≠ "" →
      (∀ u, d1.url = some u → db.products.find? (fun p => p.url = u) = none) →
      (∀ u, d2.url = some u → db.products.find? (fun p => p.url = u) = none) →
      db.products.find? (fun p => decide (p.external_id = some e) && decide (p.site = s))
        = some q →
      find_existing_product db.products d1 = some q ∧
        find_existing_product db.products d2 = some q) ∧
    (∀ d : ProductData,
      (∀ u, d.url = some u → db.products.find? (fun p => p.url = u) = none) →
      (truthyS (pyOr d.external_id d.asin) = false ∨ truthyS d.site = false) →
      find_existing_product db.products d = none) := by
  refine ⟨?_, ?_, ?_⟩
  · intro u p h1 h2 h3 h4
    exact ⟨find_by_url _ _ u p h1 h3 h4, find_by_url _ _ u p h2 h3 h4⟩
  · intro e s q he1 he2 hene hs1 hs2 hsne hm1 hm2 hf
    exact ⟨find_by_compound _ _ e s q he1 hene hs1 hsne hm1 hf,
           find_by_compound _ _ e s q he2 hene hs2 hsne hm2 hf⟩
  · intro d hm hid
    exact find_neither _ _ hm hid

/-- Witness for C3: `fixUrlA`/`fixUrlB` carry the url of `fixP0` under
different identities and both resolve to it; `fixCompoundA`/`fixCompoundB`
carry no url and resolve to `fixP2` through `(E9, ebay)`. -/
theorem identity_resolution_witness :
    (find_existing_product fixDB.products fixUrlA = some fixP0 ∧
      find_existing_product fixDB.products fixUrlB = some fixP0) ∧
    (find_existing_product fixDB.products fixCompoundA = some fixP2 ∧
      find_existing_product fixDB.products fixCompoundB = some fixP2) :=
  ⟨(identity_resolution fixDB fixUrlA fixUrlB).1 "u" fixP0 rfl rfl (by decide) (by decide),
   (identity_resolution fixDB fixCompoundA fixCompoundB).2.1 "E9" "ebay" fixP2
     (by decide) (by decide) (by decide) rfl rfl (by decide)
     (fun u hu => Option.noConfusion hu) (fun u hu => Option.noConfusion hu) (by decide)⟩

/-- A committed `saveGo` run produced exactly the full batch state. -/
theorem saveGo_some (sid : Option Nat) (fail : Nat → Bool) :
    ∀ (items : List ProductData) (db : DB) (i : Nat) (db' : DB),
      saveGo sid fail db items i = some db' → db' = processProducts db items sid := by
  intro items
  induction items with
  | nil =>
    intro db i db' h
    by_cases hf : fail i <;> simp [saveGo, hf] at h
    simp [processProducts, ← h]
  | cons d rest ih =>
    intro db i db' h
    by_cases hf : fail i
    · rw [show saveGo sid fail db (d :: rest) i = none by simp [saveGo, hf]] at h
      exact absurd h (by simp)
    · rw [show saveGo sid fail db (d :: rest) i
          = saveGo sid fail (upsertOne db d sid) rest (i + 1) by simp [saveGo, hf]] at h
      exact ih (upsertOne db d sid) (i + 1) db' h

/-- Function `saveGo` raises exactly when the oracle fails at some step of the run
(the index after the last item being the commit). -/
theorem saveGo_none_iff (sid : Option Nat) (fail : Nat → Bool) :
    ∀ (items : List ProductData) (db : DB) (i : Nat),
      saveGo sid fail db items i = none ↔
        ∃ j, i ≤ j ∧ j ≤ i + items.length ∧ fail j = true := by
  intro items
  induction items with
  | nil =>
    intro db i
    by_cases hf : fail i
    · rw [show saveGo sid fail db [] i = none by simp [saveGo, hf]]
      exact iff_of_true rfl ⟨i, le_rfl, by omega, hf⟩
    · rw [show saveGo sid fail db [] i = some db by simp [saveGo, hf]]
      constructor
      · intro h; exact absurd h (by simp)
      · rintro ⟨j, h1, h2, h3⟩
        have hji : j = i := by simp at h2; omega
        subst hji
        exact absurd h3 (by simp [hf])
  | cons d rest ih =>
    intro db i
    by_cases hf : fail i
    · rw [show saveGo sid fail db (d :: rest) i = none by simp [saveGo, hf]]
      exact iff_of_true rfl ⟨i, le_rfl, by omega, hf⟩
    · rw [show saveGo sid fail db (d :: rest) i
          = saveGo sid fail (upsertOne db d sid) rest (i + 1) by simp [saveGo, hf]]
      rw [ih]
      constructor
      · rintro ⟨j, h1, h2, h3⟩
        refine ⟨j, by omega, ?_, h3⟩
        simp only [List.length_cons]
        omega
      · rintro ⟨j, h1, h2, h3⟩
        rcases Nat.eq_or_lt_of_le h1 with h | h
        · exact absurd h3 (by simp [← h, hf])
        · refine ⟨j, h, ?_, h3⟩
          simp only [List.length_cons] at h2
          omega

/-- Claim C5: the batch upsert is atomic — when the storage layer raises,
the visible state is the unchanged original and the error reaches the
caller (`false`); when it does not raise, the committed state is the full
batch; and the error is raised exactly when some step of the run fails. -/
theorem save_products_atomic (db : DB) (items : List ProductData) (sid : Option Nat)
    (fail : Nat → Bool) :
    ((save_products db items sid fail).2 = false → (save_products db items sid fail).1 = db) ∧
    ((save_products db items sid fail).2 = true →
      (save_products db items sid fail).1 = processProducts db items sid) ∧
    ((save_products db items sid fail).2 = false ↔
      ∃ j, j ≤ items.length ∧ fail j = true) := by
  unfold save_products
  cases hg : saveGo sid fail db items 0 with
  | none =>
    refine ⟨fun _ => rfl, fun h => absurd h (by simp), ?_⟩
    have h0 := (saveGo_none_iff sid fail items db 0).mp hg
    constructor
    · intro _
      obtain ⟨j, _, h2, h3⟩ := h0
      exact ⟨j, by omega, h3⟩
    · intro _; rfl
  | some db' =>
    refine ⟨fun h => absurd h (by simp), fun _ => saveGo_some sid fail items db 0 db' hg, ?_⟩
    constructor
    · intro h; exact absurd h (by simp)
    · rintro ⟨j, h1, h2⟩
      have : saveGo sid fail db items 0 = none :=
        (saveGo_none_iff sid fail items db 0).mpr ⟨j, by omega, by omega, h2⟩
      rw [hg] at this
      exact absurd this (by simp)

/-- Witness for C5: an always-failing oracle leaves `fixDB` untouched and
reports the error; a never-failing oracle commits the processed batch. -/
theorem save_products_atomic_witness :
    (save_products fixDB [fixMoved] none (fun _ => true)).1 = fixDB ∧
    (save_products fixDB [fixMoved] none (fun _ => false)).1 =
      processProducts fixDB [fixMoved] none :=
  ⟨(save_products_atomic fixDB [fixMoved] none (fun _ => true)).1 rfl,
   (save_products_atomic fixDB [fixMoved] none (fun _ => false)).2.1 rfl⟩

/-- Claim C2 counterexample: the claim asserts
`format_price("1,234.56") = 1234.56`, but the code only transforms the
both-separators case when the comma occurs later; here the period occurs
later, the comma is left in place, `float` raises, and the result is `0.0`,
which differs from `1234.56`. -/
theorem later_separator_counterexample :
    format_price (some "1,234.56") = 0 ∧ (0 : ℚ) ≠ 1234.56 :=
  ⟨by decide, by decide⟩

/-- Claim C2 amended: when both separators survive cleaning and the comma
occurs later, the comma becomes the decimal separator and periods are
stripped (`"1.234,56"` → `1234.56`); when the period occurs later the
string is left unchanged, the residual comma makes parsing fail and the
result is `0.0`; a lone comma with a short tail is the decimal separator
(`"99,90"` → `99.9`); digits alone parse directly (`"1234"` → `1234.0`). -/
theorem price_separator_normalisation :
    (∀ t : String, (cleanPrice t).contains ',' = true →
      (cleanPrice t).contains '.' = true →
      commaAfterDot (cleanPrice t) = false →
      format_price (some t) = 0) ∧
    format_price (some "1.234,56") = 1234.56 ∧
    format_price (some "99,90") = 99.90 ∧
    format_price (some "1234") = 1234 := by
  refine ⟨?_, by decide, by decide, by decide⟩
  intro t h1 h2 h3
  have hne : t ≠ "" := by
    intro h; subst h
    exact absurd h1 (by decide)
  have hcne : (cleanPrice t).isEmpty = false := by
    cases hc : cleanPrice t with
    | nil => rw [hc] at h1; exact absurd h1 (by decide)
    | cons a l => simp
  have hnorm : normalizeSeparators (cleanPrice t) = cleanPrice t := by
    simp only [normalizeSeparators, h1, h2, h3, Bool.and_self, if_true]
    simp
  have hpf : pyFloat (cleanPrice t) = none := by
    simp only [pyFloat, h1, if_true]
  simp only [format_price]
  rw [if_neg hne, if_neg (by simp [hcne]), hnorm, hpf]
  rfl

/-- Witness for the amended C2: the period-later input parses to `0.0`. -/
theorem price_separator_normalisation_witness :
    format_price (some "1,234.56") = 0 :=
  price_separator_normalisation.1 "1,234.56" (by decide) (by decide) (by decide)

/-- Claim C8: the first numeric token of the rating text is parsed (comma
read as decimal point); a value above 5 is halved and the result is clamped
to `[0, 5]`; in particular `"9.0"` → `4.5`, `"4.5"` → `4.5`,
`"12"` → `5.0`. -/
theorem rating_halved_clamped :
    (∀ (t : String) (tok : List Char) (r : ℚ),
      firstNumToken t.data = some tok →
      pyFloat (commaToDot tok) = some r →
      extract_rating (some t) = min 5 (max 0 (if 5 < r then r / 2 else r))) ∧
    extract_rating (some "9.0") = 4.5 ∧
    extract_rating (some "4.5") = 4.5 ∧
    extract_rating (some "12") = 5 := by
  refine ⟨?_, by decide, by decide, by decide⟩
  intro t tok r htok hr
  have hne : t ≠ "" := by
    intro h; subst h
    rw [show firstNumToken (String.data "") = none from rfl] at htok
    exact Option.noConfusion htok
  simp [extract_rating, htok, hr, hne]

/-- Witness for C8 instantiating the general clause at `"9.0"`. -/
theorem rating_halved_clamped_witness :
    extract_rating (some "9.0") = min 5 (max 0 (if 5 < (9 : ℚ) then 9 / 2 else 9)) :=
  rating_halved_clamped.1 "9.0" ('9' :: '.' :: '0' :: []) 9 (by decide) (by decide)

/-- Claim C9: `format_price` is total (it is a function into `ℚ`, the
embedding of "returns a float and never raises") and collapses every
degenerate input — `None`, the empty string, text whose cleaned form is
empty (no digits, comma or period), and text whose cleaned, normalised form
`float` rejects — to exactly `0.0`. -/
theorem format_price_total :
    format_price none = 0 ∧
    format_price (some "") = 0 ∧
    (∀ t : String, cleanPrice t = [] → format_price (some t) = 0) ∧
    (∀ t : String, pyFloat (normalizeSeparators (cleanPrice t)) = none →
      format_price (some t) = 0) := by
  refine ⟨rfl, by decide, ?_, ?_⟩
  · intro t h
    by_cases he : t = ""
    · subst he; decide
    · simp [format_price, he, h]
  · intro t h
    by_cases he : t = ""
    · subst he; decide
    · by_cases hc : (cleanPrice t).isEmpty
      · simp [format_price, he, hc]
      · simp [format_price, he, hc, h]

/-- Witness for C9: a digit-free text and an unparseable cleaned form. -/
theorem format_price_total_witness :
    format_price (some "abc") = 0 ∧ format_price (some "a.b.c") = 0 :=
  ⟨format_price_total.2.2.1 "abc" (by decide),
   format_price_total.2.2.2 "a.b.c" (by decide)⟩

theorem runPair_sessions_length (db : DB) (cfg : SearchConfig) (o : PairOutcome) :
    ((runPair db cfg o).1).sessions.length =
      db.sessions.length + (if isOkNonempty o then 1 else 0) := by
  cases o with
  | err m => simp [runPair, isOkNonempty]
  | ok l =>
    by_cases hl : l.isEmpty
    · simp [runPair, isOkNonempty, hl]
    · simp [runPair, isOkNonempty, hl, processProducts_sessions]

theorem sweepAux_sessions_length :
    ∀ (pairs : List (SearchConfig × PairOutcome)) (acc : DB × List ProductData),
      ((pairs.foldl sweepStep acc).1).sessions.length =
        acc.1.sessions.length + (pairs.filter (fun pr => isOkNonempty pr.2)).length := by
  intro pairs
  induction pairs with
  | nil => intro acc; simp
  | cons pr rest ih =>
    intro acc
    rw [List.foldl_cons, ih]
    have h1 : (sweepStep acc pr).1 = (runPair acc.1 pr.1 pr.2).1 := rfl
    rw [h1, runPair_sessions_length]
    by_cases h : isOkNonempty pr.2
    · simp [List.filter_cons, h]; omega
    · simp [List.filter_cons, h]

/-- Claim C6 counterexample: a triggered execution of the daily job in
which every pair returns an empty result set — and likewise one in which
every pair raises — records no `ScrapingSession` at all, not the claimed
exactly-one outcome record; such executions are silent. -/
theorem one_session_per_execution_counterexample :
    (dailyScrapingJob emptyDB
        [(cfgAmazon, PairOutcome.ok []), (cfgML, PairOutcome.ok []),
         (cfgEbay, PairOutcome.ok [])]).1.sessions = [] ∧
    (dailyScrapingJob emptyDB
        [(cfgAmazon, PairOutcome.err "boom"), (cfgML, PairOutcome.err "boom"),
         (cfgEbay, PairOutcome.err "boom")]).1.sessions = [] :=
  ⟨by decide, by decide⟩

/-- Claim C6 amended: a triggered execution of the daily job records one
`ScrapingSession` per `(site, searchTerm)` pair whose scrape returned a
non-empty product list, and none for pairs that raised or returned no
products — so an execution whose pairs all fail or come back empty records
no session, and empty and failed executions are not distinguished by a run
record. -/
theorem sessions_per_execution (db : DB) (pairs : List (SearchConfig × PairOutcome)) :
    ((dailyScrapingJob db pairs).1).sessions.length =
      db.sessions.length + (pairs.filter (fun pr => isOkNonempty pr.2)).length :=
  sweepAux_sessions_length pairs (db, [])

/-- Claim C7: an exception raised while processing one `(site, searchTerm)`
pair of the daily sweep is absorbed — the sweep's final state and
aggregated product list are exactly those of the sweep without the failing
pair, so every remaining pair is still attempted and aggregated. -/
theorem sweep_failure_isolation (db : DB) (pre post : List (SearchConfig × PairOutcome))
    (cfg : SearchConfig) (e : String) :
    dailyScrapingJob db (pre ++ (cfg, PairOutcome.err e) :: post) =
      dailyScrapingJob db (pre ++ post) := by
  unfold dailyScrapingJob
  rw [List.foldl_append, List.foldl_append, List.foldl_cons]
  congr 1
  show sweepStep (pre.foldl sweepStep (db, [])) (cfg, PairOutcome.err e)
      = pre.foldl sweepStep (db, [])
  simp [sweepStep, runPair]

theorem foldl_pickLater_mem :
    ∀ (l : List PriceHistoryRow) (acc : Option PriceHistoryRow) (r : PriceHistoryRow),
      l.foldl pickLater acc = some r → r ∈ l ∨ acc = some r := by
  intro l
  induction l with
  | nil => intro acc r h; exact Or.inr h
  | cons a tl ih =>
    intro acc r h
    rw [List.foldl_cons] at h
    rcases ih (pickLater acc a) r h with hm | he
    · exact Or.inl (List.mem_cons_of_mem _ hm)
    · cases acc with
      | none =>
        simp only [pickLater] at he
        exact Or.inl ((Option.some.inj he) ▸ List.mem_cons_self a tl)
      | some b =>
        simp only [pickLater] at he
        by_cases hb : b.recorded_at < a.recorded_at
        · rw [if_pos hb] at he
          exact Or.inl ((Option.some.inj he) ▸ List.mem_cons_self a tl)
        · rw [if_neg hb] at he
          exact Or.inr he

theorem latestEarlier_spec (hist : List PriceHistoryRow) (h prev : PriceHistoryRow)
    (hp : latestEarlier hist h = some prev) :
    prev ∈ hist ∧ prev.product_id = h.product_id ∧ prev.recorded_at < h.recorded_at := by
  unfold latestEarlier at hp
  rcases foldl_pickLater_mem _ none prev hp with hm | he
  · rw [List.mem_filter] at hm
    obtain ⟨h1, h2⟩ := hm
    simp at h2
    exact ⟨h1, h2.1, h2.2⟩
  · exact absurd he (by simp)

theorem changeTuple_some {db : DB} {a : PriceHistoryRow}
    {pr : Product × PriceHistoryRow × PriceHistoryRow} (h : changeTuple db a = some pr) :
    ∃ prev p, latestEarlier db.history a = some prev ∧
      noiseThreshold < |prev.price - a.price| ∧
      db.products.find? (fun q => q.id = a.product_id) = some p ∧
      pr = (p, prev, a) := by
  unfold changeTuple at h
  split at h
  · rename_i prev hle
    split at h
    · rename_i hn
      split at h
      · rename_i p hfp
        exact ⟨prev, p, hle, hn, hfp, (Option.some.inj h).symm⟩
      · exact absurd h (by simp)
    · exact absurd h (by simp)
  · exact absurd h (by simp)

theorem changeTuple_eq_some {db : DB} {a prev : PriceHistoryRow} {p : Product}
    (hle : latestEarlier db.history a = some prev)
    (hn : noiseThreshold < |prev.price - a.price|)
    (hfp : db.products.find? (fun q => q.id = a.product_id) = some p) :
    changeTuple db a = some (p, prev, a) := by
  simp [changeTuple, hle, hn, hfp]

/-- Claim C4: in a store whose history rows all reference stored products,
`get_price_changes` emits a tuple with current row `h` exactly when `h` is
a history row recorded within the window whose immediately preceding row
for the same listing exists and differs in price by more than the noise
threshold; and a listing whose entire history is a single row is never
reported. -/
theorem change_query_correct (db : DB) (cutoff : Nat) (h : PriceHistoryRow)
    (hwf : ∀ r ∈ db.history, ∃ p ∈ db.products, p.id = r.product_id) :
    ((∃ pr, pr ∈ get_price_changes db cutoff ∧ pr.2.2 = h) ↔
      (h ∈ db.history ∧ cutoff ≤ h.recorded_at ∧
        ∃ prev, latestEarlier db.history h = some prev ∧
          noiseThreshold < |prev.price - h.price|)) ∧
    (historyFor db h.product_id = [h] →
      ∀ pr ∈ get_price_changes db cutoff, pr.2.2.product_id ≠ h.product_id) := by
  constructor
  · constructor
    · rintro ⟨pr, hpr, hcur⟩
      unfold get_price_changes at hpr
      rw [List.mem_filterMap] at hpr
      obtain ⟨a, ha, hct⟩ := hpr
      rw [List.mem_filter] at ha
      obtain ⟨prev, p, hle, hn, hfp, hpr_eq⟩ := changeTuple_some hct
      rw [hpr_eq] at hcur
      simp only at hcur
      subst hcur
      exact ⟨ha.1, by simpa using ha.2, prev, hle, hn⟩
    · rintro ⟨hh, hcut, prev, hle, hn⟩
      have hfind : ∃ p, db.products.find? (fun q => q.id = h.product_id) = some p := by
        obtain ⟨p, hp, hid⟩ := hwf h hh
        cases hfp : db.products.find? (fun q => q.id = h.product_id) with
        | some pF => exact ⟨pF, rfl⟩
        | none =>
          rw [List.find?_eq_none] at hfp
          exact absurd hid (by simpa using hfp p hp)
      obtain ⟨p, hfp⟩ := hfind
      refine ⟨(p, prev, h), ?_, rfl⟩
      unfold get_price_changes
      rw [List.mem_filterMap]
      exact ⟨h, List.mem_filter.mpr ⟨hh, by simpa using hcut⟩, changeTuple_eq_some hle hn hfp⟩
  · intro hone pr hpr hpid
    unfold get_price_changes at hpr
    rw [List.mem_filterMap] at hpr
    obtain ⟨a, ha, hct⟩ := hpr
    rw [List.mem_filter] at ha
    obtain ⟨prev, p, hle, hn, hfp, hpr_eq⟩ := changeTuple_some hct
    rw [hpr_eq] at hpid
    simp only at hpid
    have hspec := latestEarlier_spec db.history a prev hle
    have haF : a ∈ historyFor db h.product_id := by
      unfold historyFor
      rw [List.mem_filter]
      exact ⟨ha.1, by simp [hpid]⟩
    have hprevF : prev ∈ historyFor db h.product_id := by
      unfold historyFor
      rw [List.mem_filter]
      exact ⟨hspec.1, by simp [hspec.2.1, hpid]⟩
    rw [hone] at haF hprevF
    simp at haF hprevF
    rw [haF, hprevF] at hspec
    exact absurd hspec.2.2 (lt_irrefl _)

/-- Witness for C4: in `fixDB4` the row at clock 5 (price 200) is reported
against its predecessor at clock 0 (price 100) for a window cutoff of 3. -/
theorem change_query_correct_witness :
    ∃ pr, pr ∈ get_price_changes fixDB4 3 ∧ pr.2.2 = fixRow2 :=
  (change_query_correct fixDB4 3 fixRow2 (by decide)).1.mpr
    ⟨by decide, by decide, fixRow1, by decide, by decide⟩

end Scraper
